import Mathlib

/-!
Verification of the claromate-website cloud demo (`src/script.js` and its
debug variant).  JavaScript numbers are idealized as exact rationals; the
host Math library (`Math.cos`, `Math.sin`, `Math.PI`, GLSL `pow`) is
abstracted as explicit function/constant parameters; `Math.random` is a
stream of draws `ℕ → ℚ`.  Each definition mirrors one function or constant
of the source.
-/

namespace Claromate

/-- Truncation toward zero, the rounding used by the JavaScript `%`
operator on numbers. -/
def ratTrunc (q : ℚ) : ℤ := if 0 ≤ q then ⌊q⌋ else ⌈q⌉

/-- JavaScript remainder `a % b`: `a - b * trunc (a / b)`. -/
def jsMod (a b : ℚ) : ℚ := a - b * ratTrunc (a / b)

/-- The `cloudSettings` / `debugParams` configuration object
(script.js lines 9-16). -/
structure CloudSettings where
  fogColor : ℕ
  fogNear : ℚ
  fogFar : ℚ
  shaderPower : ℚ
  cloudOpacity : ℚ
  enableSecondLayer : Bool

/-- `cloudSettings` from script.js (identical values in the debug file). -/
def cloudSettings : CloudSettings :=
  { fogColor := 0x5ba0d0
    fogNear := 100
    fogFar := 2000
    shaderPower := 15.0
    cloudOpacity := 0.6
    enableSecondLayer := true }

/-- A 3-component vector of idealized JS numbers. -/
structure Vec3 where
  x : ℚ
  y : ℚ
  z : ℚ
  deriving DecidableEq

/-- A buffer geometry: a vertex position list and a triangle index list. -/
structure BufferGeometry where
  positions : List Vec3
  index : List ℕ
  deriving DecidableEq

/-- `new THREE.PlaneGeometry(64, 64)` (script.js line 134): one segment in
each direction, so four corner vertices at ±32 and two triangles. -/
def planeGeo : BufferGeometry :=
  { positions := [⟨-32, 32, 0⟩, ⟨32, 32, 0⟩, ⟨-32, -32, 0⟩, ⟨32, -32, 0⟩]
    index := [0, 2, 1, 2, 3, 1] }

/-- The per-instance transform parameters written onto `planeObj` during
one iteration of the generation loop (script.js lines 140-144). -/
structure CloudTransform where
  posX : ℚ
  posY : ℚ
  posZ : ℚ
  rotZ : ℚ
  scaleX : ℚ
  scaleY : ℚ
  deriving DecidableEq

/-- Iteration `i` of the generation loop consumes six `Math.random()` draws
in source order: one for x, two for y, one for z-rotation, two for the
shared x/y scale (script.js lines 140-144).  `mathPI` abstracts `Math.PI`. -/
def cloudTransform (random : ℕ → ℚ) (mathPI : ℚ) (i : ℕ) : CloudTransform :=
  { posX := random (6 * i) * 1000 - 500
    posY := -(random (6 * i + 1)) * random (6 * i + 2) * 200 - 15
    posZ := (i : ℚ)
    rotZ := random (6 * i + 3) * mathPI
    scaleX := random (6 * i + 4) * random (6 * i + 5) * 1.5 + 0.5
    scaleY := random (6 * i + 4) * random (6 * i + 5) * 1.5 + 0.5 }

/-- `planeObj.updateMatrix()` composes translation ∘ rotation-about-z ∘
scale; `applyMatrix4` applies it to one vertex.  `cosF`/`sinF` abstract
`Math.cos`/`Math.sin` as used by the library to build the rotation. -/
def applyTransformPoint (cosF sinF : ℚ → ℚ) (t : CloudTransform) (v : Vec3) : Vec3 :=
  let c := cosF t.rotZ
  let s := sinF t.rotZ
  { x := c * (t.scaleX * v.x) - s * (t.scaleY * v.y) + t.posX
    y := s * (t.scaleX * v.x) + c * (t.scaleY * v.y) + t.posY
    z := v.z + t.posZ }

/-- `clonedPlaneGeo.applyMatrix4(planeObj.matrix)`: bake the transform into
every vertex; the index list is untouched. -/
def applyMatrix4 (cosF sinF : ℚ → ℚ) (t : CloudTransform) (g : BufferGeometry) :
    BufferGeometry :=
  { positions := g.positions.map (applyTransformPoint cosF sinF t)
    index := g.index }

/-- The number of generated cloud quads (loop bound at script.js line 139). -/
def numClouds : ℕ := 8000

/-- The `i`-th cloned, transformed plane pushed onto `geometries`
(script.js lines 147-149). -/
def quadGeo (cosF sinF : ℚ → ℚ) (random : ℕ → ℚ) (mathPI : ℚ) (i : ℕ) :
    BufferGeometry :=
  applyMatrix4 cosF sinF (cloudTransform random mathPI i) planeGeo

/-- The full `geometries` array after the generation loop. -/
def cloudGeometries (cosF sinF : ℚ → ℚ) (random : ℕ → ℚ) (mathPI : ℚ) :
    List BufferGeometry :=
  (List.range numClouds).map (quadGeo cosF sinF random mathPI)

/-- Index-merging half of `BufferGeometryUtils.mergeGeometries`: each
geometry's indices are offset by the number of vertices that precede it. -/
def mergeIndexAux : List BufferGeometry → ℕ → List ℕ
  | [], _ => []
  | g :: rest, off =>
      g.index.map (· + off) ++ mergeIndexAux rest (off + g.positions.length)

/-- `BufferGeometryUtils.mergeGeometries`: concatenate vertex attributes
without deduplication and offset the index lists. -/
def mergeGeometries (gs : List BufferGeometry) : BufferGeometry :=
  { positions := (gs.map (·.positions)).flatten
    index := mergeIndexAux gs 0 }

/-- `mergedCloudGeo` (script.js line 153). -/
def mergedCloudGeo (cosF sinF : ℚ → ℚ) (random : ℕ → ℚ) (mathPI : ℚ) :
    BufferGeometry :=
  mergeGeometries (cloudGeometries cosF sinF random mathPI)

end Claromate

namespace Claromate

/-- A 4-component rgba color of idealized GLSL floats. -/
structure Vec4 where
  r : ℚ
  g : ℚ
  b : ℚ
  a : ℚ
  deriving DecidableEq

/-- GLSL `clamp(x, lo, hi)`. -/
def glClamp (x lo hi : ℚ) : ℚ := min (max x lo) hi

/-- GLSL `smoothstep(e0, e1, x)`. -/
def smoothstep (e0 e1 x : ℚ) : ℚ :=
  let t := glClamp ((x - e0) / (e1 - e0)) 0 1
  t * t * (3 - 2 * t)

/-- GLSL scalar `mix(x, y, t) = x⋅(1−t) + y⋅t`. -/
def glMix (x y t : ℚ) : ℚ := x * (1 - t) + y * t

/-- GLSL componentwise `mix` on vec4. -/
def mix4 (c d : Vec4) (t : ℚ) : Vec4 :=
  { r := glMix c.r d.r t
    g := glMix c.g d.g t
    b := glMix c.b d.b t
    a := glMix c.a d.a t }

/-- The uniform values held by the cloud shader material
(script.js lines 117-124; the texture handle is kept separate). -/
structure FragUniforms where
  fogColor : Vec3
  fogNear : ℚ
  fogFar : ℚ
  shaderPower : ℚ
  cloudOpacity : ℚ
  deriving DecidableEq

/-- The fragment shader `main` of `cloudShader` (script.js lines 36-49),
line by line.  `powF` abstracts GLSL `pow`; `texMap` is the bound sampler
as a function of UV; `fragZ`/`fragW` are `gl_FragCoord.z`/`gl_FragCoord.w`. -/
def fragmentShaderMain (powF : ℚ → ℚ → ℚ) (texMap : ℚ × ℚ → Vec4)
    (u : FragUniforms) (vUv : ℚ × ℚ) (fragZ fragW : ℚ) : Vec4 :=
  let depth := fragZ / fragW
  let fogFactor := smoothstep u.fogNear u.fogFar depth
  let texColor := texMap vUv
  let texColor' : Vec4 :=
    { r := glMix texColor.r 1 0.1
      g := glMix texColor.g 1 0.1
      b := glMix texColor.b 1 0.1
      a := texColor.a }
  let c1 : Vec4 := { texColor' with a := texColor'.a * powF fragZ u.shaderPower }
  let c2 : Vec4 := mix4 c1 { r := u.fogColor.x, g := u.fogColor.y, b := u.fogColor.z, a := c1.a } fogFactor
  { c2 with a := c2.a * u.cloudOpacity }

/-- Modelled from the spec: stage 1, "sample the texture at the
interpolated UV". -/
def specSampleStage (texMap : ℚ × ℚ → Vec4) (vUv : ℚ × ℚ) : Vec4 := texMap vUv

/-- Modelled from the spec: stage 2, "lighten the sampled rgb by blending
10% toward white". -/
def specLightenStage (c : Vec4) : Vec4 :=
  { r := glMix c.r 1 0.1
    g := glMix c.g 1 0.1
    b := glMix c.b 1 0.1
    a := c.a }

/-- Modelled from the spec: stage 3, "multiply the alpha by the
screen-space depth raised to the configured exponent". -/
def specDepthFalloffStage (powF : ℚ → ℚ → ℚ) (shaderPower fragZ : ℚ) (c : Vec4) : Vec4 :=
  { c with a := c.a * powF fragZ shaderPower }

/-- Modelled from the spec: stage 4, "blend the whole color toward the fog
color by smoothstep of the view-space depth between the configured near
and far thresholds". -/
def specFogBlendStage (fogColor : Vec3) (fogNear fogFar depth : ℚ) (c : Vec4) : Vec4 :=
  let f := smoothstep fogNear fogFar depth
  { r := glMix c.r fogColor.x f
    g := glMix c.g fogColor.y f
    b := glMix c.b fogColor.z f
    a := c.a }

/-- Modelled from the spec: stage 5, "multiply alpha by the global
opacity". -/
def specOpacityStage (cloudOpacity : ℚ) (c : Vec4) : Vec4 :=
  { c with a := c.a * cloudOpacity }

/-- Modelled from the spec: the five stages composed in the order the spec
lists them. -/
def specFragmentPipeline (powF : ℚ → ℚ → ℚ) (texMap : ℚ × ℚ → Vec4)
    (u : FragUniforms) (vUv : ℚ × ℚ) (fragZ fragW : ℚ) : Vec4 :=
  specOpacityStage u.cloudOpacity
    (specFogBlendStage u.fogColor u.fogNear u.fogFar (fragZ / fragW)
      (specDepthFalloffStage powF u.shaderPower fragZ
        (specLightenStage (specSampleStage texMap vUv))))

/-- A mesh of the scene graph: references to heap-allocated geometry and
material (by identifier), plus own transform and render flags. -/
structure Mesh where
  geometryId : ℕ
  materialId : ℕ
  posX : ℚ
  posY : ℚ
  posZ : ℚ
  renderOrder : ℤ
  visible : Bool
  deriving DecidableEq

/-- The single merged cloud geometry allocation. -/
def mergedCloudGeoId : ℕ := 0

/-- The single cloud shader material allocation. -/
def cloudMaterialId : ℕ := 0

/-- `cloudMesh = new THREE.Mesh(mergedCloudGeo, cloudMaterial)` with
`renderOrder = 2` (script.js lines 154-155); position defaults to the
origin and visibility to true. -/
def cloudMesh : Mesh :=
  { geometryId := mergedCloudGeoId
    materialId := cloudMaterialId
    posX := 0
    posY := 0
    posZ := 0
    renderOrder := 2
    visible := true }

/-- `cloudMeshA = cloudMesh.clone()` — `Mesh.clone` copies the plain
fields but shares geometry and material by reference — then
`position.z = -8000`, `renderOrder = 1`,
`visible = cloudSettings.enableSecondLayer` (script.js lines 158-161). -/
def cloudMeshA : Mesh :=
  { cloudMesh with
    posZ := -8000
    renderOrder := 1
    visible := cloudSettings.enableSecondLayer }

/-- Reading a mesh's material uniforms dereferences its material id in the
material heap. -/
def readUniforms (store : ℕ → FragUniforms) (m : Mesh) : FragUniforms :=
  store m.materialId

/-- Mutating a uniform through a mesh updates the referenced material in
place. -/
def writeUniforms (store : ℕ → FragUniforms) (m : Mesh) (u : FragUniforms) :
    ℕ → FragUniforms :=
  fun j => if j = m.materialId then u else store j

/-- The view-global state touched by `onWindowResize` and
`createBackground`. -/
structure ViewState where
  windowHalfX : ℚ
  windowHalfY : ℚ
  cameraAspect : ℚ
  rendererW : ℚ
  rendererH : ℚ
  bgCanvasW : ℚ
  bgCanvasH : ℚ
  deriving DecidableEq

/-- `onWindowResize` (script.js lines 212-223): recompute the window-half
scalars and the camera aspect, resize the renderer, and rebuild the
background gradient canvas (`createBackground` allocates it at width 32
and height `window.innerHeight`, lines 82-84). -/
def onWindowResize (innerWidth innerHeight : ℚ) (s : ViewState) : ViewState :=
  { s with
    windowHalfX := innerWidth / 2
    windowHalfY := innerHeight / 2
    cameraAspect := innerWidth / innerHeight
    rendererW := innerWidth
    rendererH := innerHeight
    bgCanvasW := 32
    bgCanvasH := innerHeight }

/-- The pointer-target scalars `mouseX`, `mouseY` (script.js lines 59-60). -/
structure PointerTarget where
  mouseX : ℚ
  mouseY : ℚ
  deriving DecidableEq

/-- One entry of a touch-event's `touches` list. -/
structure Touch where
  pageX : ℚ
  pageY : ℚ
  deriving DecidableEq

/-- `onDocumentMouseMove` (script.js lines 197-201): overwrite both
pointer-target scalars from the event position relative to the window
center. -/
def onDocumentMouseMove (windowHalfX windowHalfY clientX clientY : ℚ)
    (_s : PointerTarget) : PointerTarget :=
  { mouseX := (clientX - windowHalfX) * 0.05
    mouseY := (clientY - windowHalfY) * 0.03 }

/-- `onDocumentTouchMove` (script.js lines 203-210): only a single-touch
event updates the pointer-target scalars, from `touches[0]`. -/
def onDocumentTouchMove (windowHalfX windowHalfY : ℚ) (touches : List Touch)
    (s : PointerTarget) : PointerTarget :=
  if h : touches.length = 1 then
    let t := touches.get ⟨0, by omega⟩
    { mouseX := (t.pageX - windowHalfX) * 0.05
      mouseY := (t.pageY - windowHalfY) * 0.03 }
  else s

/-- Camera z at initialization, before the first animation tick
(script.js line 171: `camera.position.z = 6000`). -/
def cameraInitialZ : ℚ := 6000

/-- `const position = ((Date.now() - startTime) * 0.03) % 8000`
(script.js line 236), as a function of the elapsed milliseconds. -/
def cloudLoopPosition (elapsed : ℚ) : ℚ := jsMod (elapsed * 0.03) 8000

/-- `camera.position.z = -position + 8000` (script.js line 241). -/
def cameraPositionZ (elapsed : ℚ) : ℚ := -cloudLoopPosition elapsed + 8000

/-- The camera state mutated by `animate`. -/
structure CameraState where
  x : ℚ
  y : ℚ
  z : ℚ
  deriving DecidableEq

/-- One tick of `animate` (script.js lines 236-241): ease x toward
`mouseX`, y toward `-mouseY`, each by 0.005 of the remaining distance, and
snap z to the cyclic loop position. -/
def animateTick (mouseX mouseY : ℚ) (elapsed : ℚ) (c : CameraState) : CameraState :=
  { x := c.x + (mouseX - c.x) * 0.005
    y := c.y + (-mouseY - c.y) * 0.005
    z := cameraPositionZ elapsed }

/-- The camera after `n` ticks under a fixed pointer target, with
per-tick elapsed times `es`. -/
def camRun (mouseX mouseY : ℚ) (es : ℕ → ℚ) (c : CameraState) : ℕ → CameraState
  | 0 => c
  | n + 1 => animateTick mouseX mouseY (es n) (camRun mouseX mouseY es c n)

end Claromate

namespace Claromate

/-! Helper lemmas about the JavaScript remainder, used by the camera
claims. -/

theorem ratTrunc_of_nonneg {q : ℚ} (h : 0 ≤ q) : ratTrunc q = ⌊q⌋ := by
  simp [ratTrunc, h]

theorem jsMod_nonneg {a b : ℚ} (ha : 0 ≤ a) (hb : 0 < b) : 0 ≤ jsMod a b := by
  have hq : (0 : ℚ) ≤ a / b := div_nonneg ha hb.le
  rw [jsMod, ratTrunc_of_nonneg hq]
  have h := Int.floor_le (a / b)
  have : b * (⌊a / b⌋ : ℚ) ≤ b * (a / b) := by
    exact mul_le_mul_of_nonneg_left h hb.le
  rw [mul_div_cancel₀ a hb.ne.symm] at this
  linarith

theorem jsMod_lt {a b : ℚ} (ha : 0 ≤ a) (hb : 0 < b) : jsMod a b < b := by
  have hq : (0 : ℚ) ≤ a / b := div_nonneg ha hb.le
  rw [jsMod, ratTrunc_of_nonneg hq]
  have h := Int.lt_floor_add_one (a / b)
  have : b * (a / b) < b * ((⌊a / b⌋ : ℚ) + 1) := by
    exact mul_lt_mul_of_pos_left h hb
  rw [mul_div_cancel₀ a hb.ne.symm] at this
  nlinarith

theorem jsMod_add_period {a b : ℚ} (ha : 0 ≤ a) (hb : 0 < b) :
    jsMod (a + b) b = jsMod a b := by
  have hq : (0 : ℚ) ≤ a / b := div_nonneg ha hb.le
  have hq' : (0 : ℚ) ≤ (a + b) / b := div_nonneg (by linarith) hb.le
  rw [jsMod, jsMod, ratTrunc_of_nonneg hq, ratTrunc_of_nonneg hq']
  have hdiv : (a + b) / b = a / b + 1 := by
    field_simp
  rw [hdiv, Int.floor_add_one]
  push_cast
  ring

/-- C2: the camera's z position is the deterministic function
`z(t) = 8000 − ((t × 0.03) mod 8000)` of elapsed time, and it is periodic
with period `8000 / 0.03`: for every elapsed time `t ≥ 0`, the camera depth
at `t` equals the camera depth at `t + 8000 / 0.03`. -/
theorem cameraZ_formula_and_periodic (t : ℚ) (ht : 0 ≤ t) :
    cameraPositionZ t = 8000 - jsMod (t * 0.03) 8000 ∧
    cameraPositionZ (t + 8000 / 0.03) = cameraPositionZ t := by
  constructor
  · rw [cameraPositionZ, cloudLoopPosition]
    ring
  · rw [cameraPositionZ, cameraPositionZ, cloudLoopPosition, cloudLoopPosition]
    have hshift : (t + 8000 / 0.03) * 0.03 = t * 0.03 + 8000 := by ring
    rw [hshift, jsMod_add_period (mul_nonneg ht (by norm_num)) (by norm_num)]

/-- Witness for C2 at `t = 0`. -/
theorem cameraZ_formula_and_periodic_witness :
    cameraPositionZ 0 = 8000 - jsMod (0 * 0.03) 8000 ∧
    cameraPositionZ (0 + 8000 / 0.03) = cameraPositionZ 0 :=
  cameraZ_formula_and_periodic 0 le_rfl

/-- C10: after every animation tick, whatever the pointer input, the
camera's z position lies in the half-open interval (0, 8000], while the
camera is initialized at z = 6000 before the first tick. -/
theorem cameraZ_in_range (mouseX mouseY t : ℚ) (c : CameraState) (ht : 0 ≤ t) :
    (0 < (animateTick mouseX mouseY t c).z ∧ (animateTick mouseX mouseY t c).z ≤ 8000) ∧
    cameraInitialZ = 6000 := by
  have h1 := jsMod_nonneg (mul_nonneg ht (by norm_num : (0:ℚ) ≤ 0.03))
    (show (0:ℚ) < 8000 by norm_num)
  have h2 := jsMod_lt (mul_nonneg ht (by norm_num : (0:ℚ) ≤ 0.03))
    (show (0:ℚ) < 8000 by norm_num)
  refine ⟨⟨?_, ?_⟩, rfl⟩
  · show 0 < cameraPositionZ t
    rw [cameraPositionZ, cloudLoopPosition]
    linarith
  · show cameraPositionZ t ≤ 8000
    rw [cameraPositionZ, cloudLoopPosition]
    linarith

/-- Witness for C10 at `t = 0`. -/
theorem cameraZ_in_range_witness :
    (0 < (animateTick 0 0 0 ⟨0, 0, cameraInitialZ⟩).z ∧
      (animateTick 0 0 0 ⟨0, 0, cameraInitialZ⟩).z ≤ 8000) ∧
    cameraInitialZ = 6000 :=
  cameraZ_in_range 0 0 0 ⟨0, 0, cameraInitialZ⟩ le_rfl

/-- C7: the second cloud mesh shares the first mesh's geometry and material
references, sits at z = −8000, has a strictly lower draw-order priority,
its visibility equals the `enableSecondLayer` flag, and mutating a material
uniform through either mesh is observed identically through both. -/
theorem cloudMeshA_shares_and_offsets :
    cloudMeshA.geometryId = cloudMesh.geometryId ∧
    cloudMeshA.materialId = cloudMesh.materialId ∧
    cloudMeshA.posZ = -8000 ∧
    cloudMeshA.renderOrder < cloudMesh.renderOrder ∧
    cloudMeshA.visible = cloudSettings.enableSecondLayer ∧
    ∀ (store : ℕ → FragUniforms) (u : FragUniforms),
      readUniforms (writeUniforms store cloudMesh u) cloudMeshA = u ∧
      readUniforms (writeUniforms store cloudMeshA u) cloudMesh = u ∧
      readUniforms store cloudMeshA = readUniforms store cloudMesh :=
  ⟨rfl, rfl, rfl, by decide, rfl, fun store u => ⟨rfl, rfl, rfl⟩⟩

/-- C8: the resize handler is idempotent — for fixed window dimensions,
running it twice yields the same state as running it once — and it sets
the camera aspect to width/height, the window-half scalars to half the
dimensions, and the background canvas to width 32 and height equal to the
window height. -/
theorem onWindowResize_idempotent (w h : ℚ) (s : ViewState) :
    onWindowResize w h (onWindowResize w h s) = onWindowResize w h s ∧
    (onWindowResize w h s).cameraAspect = w / h ∧
    (onWindowResize w h s).windowHalfX = w / 2 ∧
    (onWindowResize w h s).windowHalfY = h / 2 ∧
    (onWindowResize w h s).bgCanvasW = 32 ∧
    (onWindowResize w h s).bgCanvasH = h :=
  ⟨rfl, rfl, rfl, rfl, rfl, rfl⟩

/-- C9: a touch-move whose touch count is not exactly 1 leaves the
pointer-target scalars unchanged; a single-touch touch-move overwrites
both scalars from the touch position relative to the window center,
exactly as a pointer-move at the same position would, regardless of the
previous pointer-target state (last-write-wins). -/
theorem touchMove_single_touch_only (windowHalfX windowHalfY : ℚ)
    (touches : List Touch) (s s' : PointerTarget) :
    (touches.length ≠ 1 → onDocumentTouchMove windowHalfX windowHalfY touches s = s) ∧
    (∀ t, touches = [t] →
      onDocumentTouchMove windowHalfX windowHalfY touches s =
        onDocumentMouseMove windowHalfX windowHalfY t.pageX t.pageY s' ∧
      (onDocumentTouchMove windowHalfX windowHalfY touches s).mouseX =
        (t.pageX - windowHalfX) * 0.05 ∧
      (onDocumentTouchMove windowHalfX windowHalfY touches s).mouseY =
        (t.pageY - windowHalfY) * 0.03) := by
  constructor
  · intro hne
    rw [onDocumentTouchMove, dif_neg hne]
  · rintro t rfl
    refine ⟨rfl, rfl, rfl⟩

/-- Witness for C9: a two-touch event is ignored and a one-touch event
matches the pointer-move handler. -/
theorem touchMove_single_touch_only_witness :
    onDocumentTouchMove 10 20 [⟨3, 4⟩, ⟨5, 6⟩] ⟨1, 2⟩ = ⟨1, 2⟩ ∧
    onDocumentTouchMove 10 20 [⟨3, 4⟩] ⟨1, 2⟩ =
      onDocumentMouseMove 10 20 3 4 ⟨7, 8⟩ :=
  ⟨(touchMove_single_touch_only 10 20 [⟨3, 4⟩, ⟨5, 6⟩] ⟨1, 2⟩ ⟨7, 8⟩).1 (by decide),
   ((touchMove_single_touch_only 10 20 [⟨3, 4⟩] ⟨1, 2⟩ ⟨7, 8⟩).2 ⟨3, 4⟩ rfl).1⟩

theorem camRun_x_closed (mouseX mouseY : ℚ) (es : ℕ → ℚ) (c : CameraState) :
    ∀ n, mouseX - (camRun mouseX mouseY es c n).x = (1 - 0.005) ^ n * (mouseX - c.x) := by
  intro n
  induction n with
  | zero => simp [camRun]
  | succ n ih =>
      simp only [camRun, animateTick]
      linear_combination (1 - 0.005 : ℚ) * ih

theorem camRun_y_closed (mouseX mouseY : ℚ) (es : ℕ → ℚ) (c : CameraState) :
    ∀ n, -mouseY - (camRun mouseX mouseY es c n).y = (1 - 0.005) ^ n * (-mouseY - c.y) := by
  intro n
  induction n with
  | zero => simp [camRun]
  | succ n ih =>
      simp only [camRun, animateTick]
      linear_combination (1 - 0.005 : ℚ) * ih

/-- C3: under a constant pointer target, each tick moves camera x toward
`mouseX` and camera y toward `-mouseY` by the fraction 0.005 of the
remaining distance, so the remaining distance is multiplied by the fixed
factor `1 − 0.005` each tick (geometric decay, closed form
`(1 − 0.005)^n`), and both coordinates approach their target monotonically
from the starting side without overshoot. -/
theorem easing_geometric_decay (mouseX mouseY : ℚ) (es : ℕ → ℚ)
    (c : CameraState) (n : ℕ) :
    (mouseX - (camRun mouseX mouseY es c (n + 1)).x
        = (1 - 0.005) * (mouseX - (camRun mouseX mouseY es c n).x)) ∧
    (-mouseY - (camRun mouseX mouseY es c (n + 1)).y
        = (1 - 0.005) * (-mouseY - (camRun mouseX mouseY es c n).y)) ∧
    (mouseX - (camRun mouseX mouseY es c n).x = (1 - 0.005) ^ n * (mouseX - c.x)) ∧
    (-mouseY - (camRun mouseX mouseY es c n).y = (1 - 0.005) ^ n * (-mouseY - c.y)) ∧
    (c.x ≤ mouseX →
      (camRun mouseX mouseY es c n).x ≤ (camRun mouseX mouseY es c (n + 1)).x ∧
      (camRun mouseX mouseY es c (n + 1)).x ≤ mouseX) ∧
    (mouseX ≤ c.x →
      mouseX ≤ (camRun mouseX mouseY es c (n + 1)).x ∧
      (camRun mouseX mouseY es c (n + 1)).x ≤ (camRun mouseX mouseY es c n).x) ∧
    (c.y ≤ -mouseY →
      (camRun mouseX mouseY es c n).y ≤ (camRun mouseX mouseY es c (n + 1)).y ∧
      (camRun mouseX mouseY es c (n + 1)).y ≤ -mouseY) ∧
    (-mouseY ≤ c.y →
      -mouseY ≤ (camRun mouseX mouseY es c (n + 1)).y ∧
      (camRun mouseX mouseY es c (n + 1)).y ≤ (camRun mouseX mouseY es c n).y) := by
  have hxn := camRun_x_closed mouseX mouseY es c n
  have hxn1 := camRun_x_closed mouseX mouseY es c (n + 1)
  have hyn := camRun_y_closed mouseX mouseY es c n
  have hyn1 := camRun_y_closed mouseX mouseY es c (n + 1)
  have hpow : (0 : ℚ) ≤ (1 - 0.005) ^ n := by positivity
  refine ⟨?_, ?_, hxn, hyn, ?_, ?_, ?_, ?_⟩
  · rw [hxn, hxn1]
    ring
  · rw [hyn, hyn1]
    ring
  · intro hcx
    have hx : (0 : ℚ) ≤ mouseX - c.x := by linarith
    have hd : (0 : ℚ) ≤ (1 - 0.005) ^ n * (mouseX - c.x) := mul_nonneg hpow hx
    have hs : (1 - 0.005 : ℚ) ^ (n + 1) * (mouseX - c.x)
        = (1 - 0.005) * ((1 - 0.005) ^ n * (mouseX - c.x)) := by ring
    constructor
    · linarith [hxn, hxn1, hd, hs]
    · linarith [hxn1, hd, hs]
  · intro hcx
    have hx : mouseX - c.x ≤ 0 := by linarith
    have hd : (1 - 0.005 : ℚ) ^ n * (mouseX - c.x) ≤ 0 :=
      mul_nonpos_of_nonneg_of_nonpos hpow hx
    have hs : (1 - 0.005 : ℚ) ^ (n + 1) * (mouseX - c.x)
        = (1 - 0.005) * ((1 - 0.005) ^ n * (mouseX - c.x)) := by ring
    constructor
    · linarith [hxn1, hd, hs]
    · linarith [hxn, hxn1, hd, hs]
  · intro hcy
    have hy : (0 : ℚ) ≤ -mouseY - c.y := by linarith
    have hd : (0 : ℚ) ≤ (1 - 0.005) ^ n * (-mouseY - c.y) := mul_nonneg hpow hy
    have hs : (1 - 0.005 : ℚ) ^ (n + 1) * (-mouseY - c.y)
        = (1 - 0.005) * ((1 - 0.005) ^ n * (-mouseY - c.y)) := by ring
    constructor
    · linarith [hyn, hyn1, hd, hs]
    · linarith [hyn1, hd, hs]
  · intro hcy
    have hy : -mouseY - c.y ≤ 0 := by linarith
    have hd : (1 - 0.005 : ℚ) ^ n * (-mouseY - c.y) ≤ 0 :=
      mul_nonpos_of_nonneg_of_nonpos hpow hy
    have hs : (1 - 0.005 : ℚ) ^ (n + 1) * (-mouseY - c.y)
        = (1 - 0.005) * ((1 - 0.005) ^ n * (-mouseY - c.y)) := by ring
    constructor
    · linarith [hyn1, hd, hs]
    · linarith [hyn, hyn1, hd, hs]

/-- Witness for C3: target 100 held fixed from the origin — the camera x
keeps increasing and never exceeds the target. -/
theorem easing_geometric_decay_witness :
    (camRun 100 0 (fun _ => 0) ⟨0, 0, 6000⟩ 1).x ≤
      (camRun 100 0 (fun _ => 0) ⟨0, 0, 6000⟩ 2).x ∧
    (camRun 100 0 (fun _ => 0) ⟨0, 0, 6000⟩ 2).x ≤ 100 :=
  (easing_geometric_decay 100 0 (fun _ => 0) ⟨0, 0, 6000⟩ 1).2.2.2.2.1
    (show (0 : ℚ) ≤ 100 by norm_num)

/-- C4: for any quad, given draws in [0, 1) and a positive `Math.PI`
constant: x is `u·1000 − 500`, hence uniform over [−500, 500); y is
`−(u·v·200) − 15`, hence in (−215, −15]; the z rotation is `u · π`, hence
in [0, π); and the scale is equal in x and y and is `u·v·1.5 + 0.5`, hence
in [0.5, 2). -/
theorem cloudTransform_distribution (random : ℕ → ℚ) (mathPI : ℚ) (i : ℕ)
    (hr : ∀ k, 0 ≤ random k ∧ random k < 1) (hpi : 0 < mathPI) :
    ((cloudTransform random mathPI i).posX = random (6 * i) * 1000 - 500 ∧
      -500 ≤ (cloudTransform random mathPI i).posX ∧
      (cloudTransform random mathPI i).posX < 500) ∧
    ((cloudTransform random mathPI i).posY
        = -(random (6 * i + 1) * random (6 * i + 2) * 200) - 15 ∧
      -215 < (cloudTransform random mathPI i).posY ∧
      (cloudTransform random mathPI i).posY ≤ -15) ∧
    ((cloudTransform random mathPI i).rotZ = random (6 * i + 3) * mathPI ∧
      0 ≤ (cloudTransform random mathPI i).rotZ ∧
      (cloudTransform random mathPI i).rotZ < mathPI) ∧
    ((cloudTransform random mathPI i).scaleX = (cloudTransform random mathPI i).scaleY ∧
      (cloudTransform random mathPI i).scaleX
        = random (6 * i + 4) * random (6 * i + 5) * 1.5 + 0.5 ∧
      0.5 ≤ (cloudTransform random mathPI i).scaleX ∧
      (cloudTransform random mathPI i).scaleX < 2) := by
  obtain ⟨hx0, hx1⟩ := hr (6 * i)
  obtain ⟨hy10, hy11⟩ := hr (6 * i + 1)
  obtain ⟨hy20, hy21⟩ := hr (6 * i + 2)
  obtain ⟨hr0, hr1⟩ := hr (6 * i + 3)
  obtain ⟨hs10, hs11⟩ := hr (6 * i + 4)
  obtain ⟨hs20, hs21⟩ := hr (6 * i + 5)
  have hy : 0 ≤ random (6 * i + 1) * random (6 * i + 2) ∧
      random (6 * i + 1) * random (6 * i + 2) < 1 :=
    ⟨mul_nonneg hy10 hy20, by nlinarith⟩
  have hs : 0 ≤ random (6 * i + 4) * random (6 * i + 5) ∧
      random (6 * i + 4) * random (6 * i + 5) < 1 :=
    ⟨mul_nonneg hs10 hs20, by nlinarith⟩
  refine ⟨⟨rfl, by simp only [cloudTransform]; linarith, by simp only [cloudTransform]; linarith⟩,
    ⟨by simp only [cloudTransform]; ring, ?_, ?_⟩,
    ⟨rfl, mul_nonneg hr0 hpi.le, ?_⟩,
    ⟨rfl, rfl, ?_, ?_⟩⟩
  · simp only [cloudTransform]
    nlinarith [hy.2]
  · simp only [cloudTransform]
    nlinarith [hy.1]
  · show random (6 * i + 3) * mathPI < mathPI
    nlinarith
  · show (0.5 : ℚ) ≤ random (6 * i + 4) * random (6 * i + 5) * 1.5 + 0.5
    nlinarith [hs.1]
  · show random (6 * i + 4) * random (6 * i + 5) * 1.5 + 0.5 < 2
    nlinarith [hs.2]

/-- Witness for C4 with every draw 1/2 and `Math.PI` modelled as 3. -/
theorem cloudTransform_distribution_witness :
    -500 ≤ (cloudTransform (fun _ => (1 : ℚ) / 2) 3 0).posX ∧
    (cloudTransform (fun _ => (1 : ℚ) / 2) 3 0).rotZ < 3 ∧
    0.5 ≤ (cloudTransform (fun _ => (1 : ℚ) / 2) 3 0).scaleX := by
  obtain ⟨⟨-, hx, -⟩, -, ⟨-, -, hrot⟩, ⟨-, -, hsc, -⟩⟩ :=
    cloudTransform_distribution (fun _ => (1 : ℚ) / 2) 3 0
      (fun k => by norm_num) (by norm_num)
  exact ⟨hx, hrot, hsc⟩

theorem mergeIndexAux_length (gs : List BufferGeometry) (off : ℕ) :
    (mergeIndexAux gs off).length = (gs.map (fun g => g.index.length)).sum := by
  induction gs generalizing off with
  | nil => simp [mergeIndexAux]
  | cons g rest ih => simp [mergeIndexAux, ih]

/-- C5: whatever the random draws (and Math library behavior), the merged
cloud geometry has exactly 4 × 8000 = 32000 vertices and
3 × (2 × 8000) = 48000 index entries, i.e. 2 × 8000 = 16000 triangles. -/
theorem mergedCloudGeo_counts (cosF sinF : ℚ → ℚ) (random : ℕ → ℚ) (mathPI : ℚ) :
    (mergedCloudGeo cosF sinF random mathPI).positions.length = 4 * numClouds ∧
    (mergedCloudGeo cosF sinF random mathPI).positions.length = 32000 ∧
    (mergedCloudGeo cosF sinF random mathPI).index.length = 3 * (2 * numClouds) := by
  have hpos : (mergedCloudGeo cosF sinF random mathPI).positions.length = 4 * numClouds := by
    simp only [mergedCloudGeo, mergeGeometries, List.length_flatten, List.map_map]
    have hrep : ((cloudGeometries cosF sinF random mathPI).map
        (List.length ∘ BufferGeometry.positions)) = List.replicate numClouds 4 := by
      refine List.eq_replicate_iff.mpr ⟨by simp [cloudGeometries], ?_⟩
      intro b hb
      simp only [cloudGeometries, List.map_map, List.mem_map, List.mem_range] at hb
      obtain ⟨k, -, rfl⟩ := hb
      rfl
    rw [cloudGeometries, List.map_map] at hrep ⊢
    rw [hrep, List.sum_replicate, smul_eq_mul]
    ring
  have hidx : (mergedCloudGeo cosF sinF random mathPI).index.length = 3 * (2 * numClouds) := by
    simp only [mergedCloudGeo, mergeGeometries, mergeIndexAux_length]
    have hrep : ((cloudGeometries cosF sinF random mathPI).map
        (fun g => g.index.length)) = List.replicate numClouds 6 := by
      refine List.eq_replicate_iff.mpr ⟨by simp [cloudGeometries], ?_⟩
      intro b hb
      simp only [cloudGeometries, List.map_map, List.mem_map, List.mem_range] at hb
      obtain ⟨k, -, rfl⟩ := hb
      rfl
    rw [hrep, List.sum_replicate, smul_eq_mul]
    ring
  refine ⟨hpos, ?_, hidx⟩
  rw [hpos]
  rfl

theorem cloudGeometries_getD (cosF sinF : ℚ → ℚ) (random : ℕ → ℚ) (mathPI : ℚ)
    (k : ℕ) (hk : k < numClouds) :
    (cloudGeometries cosF sinF random mathPI).getD k planeGeo
      = quadGeo cosF sinF random mathPI k := by
  rw [cloudGeometries, List.getD_eq_getElem?_getD, List.getElem?_map,
    List.getElem?_range hk]
  rfl

/-- C1: for every generation index `i < 8000`, every vertex of the `i`-th
quad in the generated `geometries` array has z coordinate exactly `i` — so
the baked z values are exactly 0..7999 — and for any later index
`j < 8000` every vertex of the `i`-th quad is strictly in front of every
vertex of the `j`-th quad in z: strictly monotone in the instance index. -/
theorem quad_z_eq_generation_index (cosF sinF : ℚ → ℚ) (random : ℕ → ℚ)
    (mathPI : ℚ) (i j : ℕ) (hi : i < numClouds) :
    (((cloudGeometries cosF sinF random mathPI).getD i planeGeo).positions.all
        (fun v => decide (v.z = (i : ℚ))) = true) ∧
    (j < numClouds → i < j →
      ((cloudGeometries cosF sinF random mathPI).getD i planeGeo).positions.all
        (fun v =>
          ((cloudGeometries cosF sinF random mathPI).getD j planeGeo).positions.all
            (fun w => decide (v.z < w.z))) = true) := by
  constructor
  · rw [cloudGeometries_getD cosF sinF random mathPI i hi]
    simp [quadGeo, applyMatrix4, planeGeo, applyTransformPoint, cloudTransform]
  · intro hj hij
    rw [cloudGeometries_getD cosF sinF random mathPI i hi,
      cloudGeometries_getD cosF sinF random mathPI j hj]
    have hz : (i : ℚ) < (j : ℚ) := by exact_mod_cast hij
    simp [quadGeo, applyMatrix4, planeGeo, applyTransformPoint, cloudTransform, hz]

/-- Witness for C1 with trivial Math functions and a constant draw stream:
the last quad (index 7999) has z = 7999 on every vertex, and quad 0 is
strictly in front of quad 1. -/
theorem quad_z_eq_generation_index_witness :
    (((cloudGeometries (fun _ => 1) (fun _ => 0) (fun _ => 0) 0).getD 7999
          planeGeo).positions.all
        (fun v => decide (v.z = ((7999 : ℕ) : ℚ))) = true) ∧
    (((cloudGeometries (fun _ => 1) (fun _ => 0) (fun _ => 0) 0).getD 0
          planeGeo).positions.all
        (fun v =>
          ((cloudGeometries (fun _ => 1) (fun _ => 0) (fun _ => 0) 0).getD 1
              planeGeo).positions.all
            (fun w => decide (v.z < w.z))) = true) :=
  ⟨(quad_z_eq_generation_index (fun _ => 1) (fun _ => 0) (fun _ => 0) 0 7999 0
      (by norm_num [numClouds])).1,
   (quad_z_eq_generation_index (fun _ => 1) (fun _ => 0) (fun _ => 0) 0 0 1
      (by norm_num [numClouds])).2 (by norm_num [numClouds]) (by norm_num)⟩

/-- C6: the fragment shader's output is exactly the composition, in order,
of the five stages the spec names: texture sample, 10% lighten toward
white, screen-space-depth opacity falloff, fog blend by smoothstep of
view-space depth, and the global opacity multiplier. -/
theorem fragmentShader_is_spec_pipeline (powF : ℚ → ℚ → ℚ)
    (texMap : ℚ × ℚ → Vec4) (u : FragUniforms) (vUv : ℚ × ℚ)
    (fragZ fragW : ℚ) :
    fragmentShaderMain powF texMap u vUv fragZ fragW
      = specFragmentPipeline powF texMap u vUv fragZ fragW := by
  simp only [fragmentShaderMain, specFragmentPipeline, specSampleStage,
    specLightenStage, specDepthFalloffStage, specFogBlendStage,
    specOpacityStage, mix4, glMix, Vec4.mk.injEq]
  refine ⟨trivial, trivial, trivial, ?_⟩
  ring

end Claromate
